import Mathlib

/-!
Verification development for the trading-bot core pipeline:
tick→bar aggregation (CandleService, MultiTimeframeCandleService),
ring-buffer storage (CandleRingBuffer), swing detection (SwingAnalyzer),
multi-timeframe consensus (MultiTimeframeAnalyzer), signal emission
(SignalService), and the analysis orchestrator (AnalyzerService).

JS numbers are modelled as rationals (ℚ); timestamps are milliseconds.
JS division is total on ℚ (x / 0 = 0); none of the statements below
exercise a division by zero except where explicitly mirrored (the
`|| 0.01` fallback of calculateSwingStrength, modelled by a zero test).
-/

namespace TradingBot

/-- OHLCV candle as built by CandleService / MultiTimeframeCandleService.
`open_` stands for the JS field `open` (a Lean keyword). -/
structure Candle where
  timestamp : ℚ
  open_ : ℚ
  high : ℚ
  low : ℚ
  close : ℚ
  volume : ℚ
  originalTimestamp : ℚ
deriving Repr, DecidableEq, Inhabited

/-! ## CandleService (base 1-second aggregator) -/

/-- Mutable state of CandleService: the current (open) candle and its start time. -/
structure CandleState where
  currentCandle : Option Candle
  candleStartTime : Option ℚ
deriving Repr, DecidableEq, Inhabited

def initialCandleState : CandleState := ⟨none, none⟩

/-- CandleService.startNewCandle: fresh candle at the tick's own timestamp,
OHLC all equal to the tick price, volume initialised to 0. -/
def startNewCandle (timestamp price : ℚ) : Candle :=
  { timestamp := timestamp, open_ := price, high := price, low := price,
    close := price, volume := 0, originalTimestamp := timestamp }

/-- CandleService.addData: processes one tick, returning the new state and the
list of candles closed by this tick (empty or a singleton).
`interval` is CONFIG.live.candleInterval (1000 ms by default). -/
def addData (interval : ℚ) (s : CandleState) (timestamp price volume : ℚ) :
    CandleState × List Candle :=
  match s.candleStartTime with
  | none => (⟨some (startNewCandle timestamp price), some timestamp⟩, [])
  | some st =>
    let timeDiff := timestamp - st
    if interval ≤ timeDiff then
      match s.currentCandle with
      | some c =>
        let closed : Candle :=
          { c with close := price, high := max c.high price,
                   low := min c.low price, volume := c.volume + volume }
        (⟨some (startNewCandle timestamp price), some timestamp⟩, [closed])
      | none => (⟨some (startNewCandle timestamp price), some timestamp⟩, [])
    else
      match s.currentCandle with
      | none => (⟨some (startNewCandle timestamp price), some timestamp⟩, [])
      | some c =>
        (⟨some { c with high := max c.high price, low := min c.low price,
                         close := price, volume := c.volume + volume },
           some st⟩, [])

/-- Run addData over a chronological tick stream (timestamp, price, volume). -/
def runTicks (interval : ℚ) (s : CandleState) :
    List (ℚ × ℚ × ℚ) → CandleState × List Candle
  | [] => (s, [])
  | (t, p, v) :: rest =>
    let step := addData interval s t p v
    let next := runTicks interval step.1 rest
    (next.1, step.2 ++ next.2)

/-! ## CandleRingBuffer -/

/-- CandleRingBuffer state: a fixed-size slot array (unset slots are `none`,
mirroring `new Array(capacity)`), with size/head/tail indices. -/
structure RingBuffer (α : Type) where
  capacity : ℕ
  buffer : List (Option α)
  size : ℕ
  head : ℕ
  tail : ℕ
deriving Repr

def RingBuffer.empty (α : Type) (capacity : ℕ) : RingBuffer α :=
  ⟨capacity, List.replicate capacity none, 0, 0, 0⟩

/-- CandleRingBuffer.push. -/
def RingBuffer.push {α : Type} (rb : RingBuffer α) (c : α) : RingBuffer α :=
  let buf := rb.buffer.set rb.tail (some c)
  let tl := (rb.tail + 1) % rb.capacity
  if rb.size < rb.capacity then
    { rb with buffer := buf, tail := tl, size := rb.size + 1 }
  else
    { rb with buffer := buf, tail := tl, head := (rb.head + 1) % rb.capacity }

/-- CandleRingBuffer.getAll: slots head, head+1, …, head+size−1 (mod capacity). -/
def RingBuffer.getAll {α : Type} (rb : RingBuffer α) : List (Option α) :=
  if rb.size = 0 then []
  else (List.range rb.size).map (fun i => rb.buffer.getD ((rb.head + i) % rb.capacity) none)

/-- CandleRingBuffer.getRecent: `getAll().slice(-count)`. For count = 0 the JS
slice start index −0 equals 0, so the WHOLE retained list is returned. -/
def RingBuffer.getRecent {α : Type} (rb : RingBuffer α) (count : ℕ) : List (Option α) :=
  let a := rb.getAll
  if count = 0 then a else a.drop (a.length - count)

def RingBuffer.pushAll {α : Type} (rb : RingBuffer α) (xs : List α) : RingBuffer α :=
  xs.foldl RingBuffer.push rb

/-! ## MultiTimeframeCandleService -/

/-- Per-timeframe state of MultiTimeframeCandleService: the current candle of
one timeframe and its (floored) start time. -/
structure MtfState where
  currentCandle : Option Candle
  candleStartTime : Option ℚ
deriving Repr, DecidableEq, Inhabited

def initialMtfState : MtfState := ⟨none, none⟩

/-- MultiTimeframeCandleService.startNewCandle: start time rounded down to the
timeframe interval, OHLCV copied from the incoming 1-second candle. -/
def mtfStartNewCandle (interval : ℚ) (timestamp : ℚ) (c : Candle) : MtfState :=
  let startTime : ℚ := ⌊timestamp / interval⌋ * interval
  ⟨some { timestamp := startTime, open_ := c.open_, high := c.high, low := c.low,
          close := c.close, volume := c.volume,
          originalTimestamp := c.originalTimestamp },
   some startTime⟩

/-- The synthetic flat candle stored for one skipped interval: OHLC all equal to
the INCOMING candle's close (`oneSecondCandle.close` in the source), volume 0. -/
def emptyCandle (startTime closePrice : ℚ) : Candle :=
  { timestamp := startTime, open_ := closePrice, high := closePrice,
    low := closePrice, close := closePrice, volume := 0,
    originalTimestamp := startTime }

/-- MultiTimeframeCandleService.processTimeframe for one timeframe with the
given interval (ms): returns the new state and the completed candles stored by
this call, in storage order (finalized candle first, then gap fillers). -/
def processTimeframe (interval : ℚ) (s : MtfState) (c : Candle) :
    MtfState × List Candle :=
  let candleTime := c.timestamp
  match s.candleStartTime with
  | none => (mtfStartNewCandle interval candleTime c, [])
  | some st =>
    let timeDiff := candleTime - st
    if interval ≤ timeDiff then
      let stored :=
        match s.currentCandle with
        | some cur =>
          [{ cur with close := c.close, high := max cur.high c.high,
                      low := min cur.low c.low, volume := cur.volume + c.volume }]
        | none => []
      let intervalsSkipped : ℤ := ⌊timeDiff / interval⌋
      let gaps :=
        if 1 < intervalsSkipped then
          (List.range (intervalsSkipped.toNat - 1)).map
            (fun k => emptyCandle (st + (k + 1 : ℕ) * interval) c.close)
        else []
      (mtfStartNewCandle interval candleTime c, stored ++ gaps)
    else
      match s.currentCandle with
      | none => (mtfStartNewCandle interval candleTime c, [])
      | some cur =>
        (⟨some { cur with high := max cur.high c.high, low := min cur.low c.low,
                          close := c.close, volume := cur.volume + c.volume },
          some st⟩, [])

/-! ## SwingAnalyzer -/

/-- One entry of SwingAnalyzer.priceData; its JS `index` field equals its list
position, so we use positional indices instead of storing it. -/
structure PriceBar where
  timestamp : ℚ
  open_ : ℚ
  high : ℚ
  low : ℚ
  close : ℚ
  volume : ℚ
  originalTimestamp : ℚ
deriving Repr, DecidableEq, Inhabited

/-- Swing point types as used by SwingAnalyzer (the only values the field
`type` ever takes in the system). -/
inductive SwingType
  | SWING_HIGH
  | SWING_LOW
deriving Repr, DecidableEq, Inhabited

/-- A detected swing point, as pushed by SwingAnalyzer.detectSwingPoints and
tagged with its timeframe by MultiTimeframeAnalyzer.findCommonSwingPoints. -/
structure SwingPoint where
  timestamp : ℚ
  price : ℚ
  type : SwingType
  strength : ℚ
  index : ℕ
  timeframe : String
  bar : Option PriceBar
  barRange : ℚ
  bodySize : ℚ
  isBullish : Bool
deriving Repr, DecidableEq, Inhabited

inductive SwingKind
  | high
  | low
deriving Repr, DecidableEq

def closeAt (pd : List PriceBar) (i : ℕ) : ℚ := (pd.getD i default).close

/-- SwingAnalyzer.calculateSwingStrength: swing movement divided by the average
absolute close-to-close change over the window [index−10, index+10) (skipping
the candidate itself and position 0); `totalMovement / count || 0.01` makes the
average 0.01 when the window is empty or flat, and the JS `|| current.low`
fallback fires when the previous bar's low (resp. high) is 0. -/
def calculateSwingStrength (pd : List PriceBar) (index : ℕ) (kind : SwingKind) : ℚ :=
  let current := pd.getD index default
  let lo := index - 10
  let hi := min pd.length (index + 10)
  let idxs := ((List.range (hi - lo)).map (· + lo)).filter (fun i => i ≠ index ∧ 0 < i)
  let totalMovement := (idxs.map (fun i => |closeAt pd i - closeAt pd (i - 1)|)).sum
  let count : ℕ := idxs.length
  let avgMovement : ℚ :=
    if count = 0 ∨ totalMovement = 0 then 1 / 100 else totalMovement / count
  let swingMovement : ℚ :=
    match kind with
    | .high =>
      let prevLow := if index = 0 then current.low
        else (let l := (pd.getD (index - 1) default).low
              if l = 0 then current.low else l)
      current.high - min current.low prevLow
    | .low =>
      let prevHigh := if index = 0 then current.high
        else (let h := (pd.getD (index - 1) default).high
              if h = 0 then current.high else h)
      max current.high prevHigh - current.low
  swingMovement / avgMovement

/-- Bar i is a swing-high candidate: its high strictly exceeds the high of every
bar in the left window and every bar in the right window. -/
def isSwingHighAt (left right : ℕ) (pd : List PriceBar) (i : ℕ) : Bool :=
  let cur := pd.getD i default
  ((List.range left).all fun j => decide ((pd.getD (i - (j + 1)) default).high < cur.high)) &&
  ((List.range right).all fun j => decide ((pd.getD (i + (j + 1)) default).high < cur.high))

/-- Bar i is a swing-low candidate (symmetric on lows). -/
def isSwingLowAt (left right : ℕ) (pd : List PriceBar) (i : ℕ) : Bool :=
  let cur := pd.getD i default
  ((List.range left).all fun j => decide (cur.low < (pd.getD (i - (j + 1)) default).low)) &&
  ((List.range right).all fun j => decide (cur.low < (pd.getD (i + (j + 1)) default).low))

/-- The record pushed into swingHighs / swingLows for a detected swing. -/
def mkSwing (timeframe : String) (t : SwingType) (pd : List PriceBar)
    (i : ℕ) (strength : ℚ) : SwingPoint :=
  let cur := pd.getD i default
  { timestamp := cur.timestamp,
    price := match t with | .SWING_HIGH => cur.high | .SWING_LOW => cur.low,
    type := t, strength := strength, index := i, timeframe := timeframe,
    bar := some cur, barRange := cur.high - cur.low,
    bodySize := |cur.close - cur.open_|,
    isBullish := decide (cur.open_ < cur.close) }

/-- SwingAnalyzer.filterConsecutiveSwings: JS Array.filter passes the ORIGINAL
array, so each element is compared with its predecessor in the unfiltered list
(position 0 is always kept). -/
def filterConsecutiveSwings (left : ℕ) : List SwingPoint → List SwingPoint
  | [] => []
  | a :: rest =>
    a :: ((rest.zip (a :: rest)).filterMap
      fun pr => if left < pr.1.index - pr.2.index then some pr.1 else none)

/-- Indices visited by the detection loop:
`for (let i = leftBars; i < length - rightBars; i++)`. -/
def candidateIdxs (left right : ℕ) (pd : List PriceBar) : List ℕ :=
  (List.range (pd.length - right - left)).map (· + left)

/-- The swingHighs array as built by detectSwingPoints before the consecutive
filter: one record per candidate index whose high strictly dominates its
window and whose strength reaches minStrength. -/
def detectRawSwingHighs (timeframe : String) (left right : ℕ) (minStrength : ℚ)
    (pd : List PriceBar) : List SwingPoint :=
  (candidateIdxs left right pd).filterMap fun i =>
    if isSwingHighAt left right pd i then
      let s := calculateSwingStrength pd i .high
      if minStrength ≤ s then some (mkSwing timeframe .SWING_HIGH pd i s) else none
    else none

/-- The swingLows array before the consecutive filter (symmetric on lows). -/
def detectRawSwingLows (timeframe : String) (left right : ℕ) (minStrength : ℚ)
    (pd : List PriceBar) : List SwingPoint :=
  (candidateIdxs left right pd).filterMap fun i =>
    if isSwingLowAt left right pd i then
      let s := calculateSwingStrength pd i .low
      if minStrength ≤ s then some (mkSwing timeframe .SWING_LOW pd i s) else none
    else none

/-- SwingAnalyzer.detectSwingPoints: returns the swingPoints array
(filtered swing highs followed by filtered swing lows). Yields nothing when
fewer than left+right+1 bars are available. -/
def detectSwingPoints (timeframe : String) (left right : ℕ) (minStrength : ℚ)
    (pd : List PriceBar) : List SwingPoint :=
  if pd.length < left + right + 1 then []
  else
    filterConsecutiveSwings left (detectRawSwingHighs timeframe left right minStrength pd) ++
    filterConsecutiveSwings left (detectRawSwingLows timeframe left right minStrength pd)

/-! ## MultiTimeframeAnalyzer -/

/-- The CONFIG fields consumed by the consensus and signal steps. -/
structure Config where
  commonPointTolerance : ℚ
  openCloseTolerance : ℚ
  volumeSimilarityThreshold : ℚ
  signalRevisitTolerance : ℚ
deriving Repr, DecidableEq

/-- Defaults from config.js. -/
def defaultConfig : Config :=
  { commonPointTolerance := 1 / 1000, openCloseTolerance := 1 / 500,
    volumeSimilarityThreshold := 3 / 10, signalRevisitTolerance := 1 / 500 }

/-- Mean of a list of rationals (JS sum/length; 0 for the empty list). -/
def avgQ (l : List ℚ) : ℚ := l.sum / l.length

/-- MultiTimeframeAnalyzer.calculatePriceVariance (population variance). -/
def calculatePriceVariance (prices : List ℚ) : ℚ :=
  let a := avgQ prices
  (prices.map fun p => (p - a) ^ 2).sum / prices.length

/-- getTimeDifference: absolute difference in minutes (timestamps are ms). -/
def getTimeDifference (t1 t2 : ℚ) : ℚ := |t1 - t2| / 60000

/-- Nominal duration in minutes of a timeframe label (default 1). -/
def timeframeDuration (tf : String) : ℚ :=
  if tf = "15s" then 1 / 4
  else if tf = "1m" then 1
  else if tf = "3m" then 3
  else if tf = "5m" then 5
  else 1

def getMaxTimeDiffForTimeframes (tf1 tf2 : String) : ℚ :=
  max (timeframeDuration tf1) (timeframeDuration tf2) * 2

def arePricesSimilar (cfg : Config) (p1 p2 : SwingPoint) : Bool :=
  decide (|p1.price - p2.price| / p1.price ≤ cfg.commonPointTolerance)

/-- areOpenCloseSimilar: trivially true when a bar snapshot is missing. -/
def areOpenCloseSimilar (cfg : Config) (p1 p2 : SwingPoint) : Bool :=
  match p1.bar, p2.bar with
  | some b1, some b2 =>
    let openDiff := |b1.open_ - b2.open_| / b1.open_
    let closeDiff := |b1.close - b2.close| / b1.close
    if cfg.openCloseTolerance < openDiff then false
    else if cfg.openCloseTolerance < closeDiff then false
    else
      let isBullish1 := decide (b1.open_ < b1.close)
      let isBullish2 := decide (b2.open_ < b2.close)
      if isBullish1 ≠ isBullish2 then
        let bodySize1 := |b1.close - b1.open_|
        let bodySize2 := |b2.close - b2.open_|
        let avgBodySize := (bodySize1 + bodySize2) / 2
        if avgBodySize * (3 / 10) < bodySize1 ∧ avgBodySize * (3 / 10) < bodySize2
        then false else true
      else true
  | _, _ => true

/-- areBarCharacteristicsSimilar: bar range within 50% of the first bar's range
and, when both volumes are positive, volume ratio above the threshold. -/
def areBarCharacteristicsSimilar (cfg : Config) (p1 p2 : SwingPoint) : Bool :=
  match p1.bar, p2.bar with
  | some b1, some b2 =>
    let range1 := b1.high - b1.low
    let range2 := b2.high - b2.low
    let rangeDiff := |range1 - range2| / range1
    if (1 : ℚ) / 2 < rangeDiff then false
    else if 0 < b1.volume ∧ 0 < b2.volume then
      let volumeRatio := min b1.volume b2.volume / max b1.volume b2.volume
      if volumeRatio < cfg.volumeSimilarityThreshold then false else true
    else true
  | _, _ => true

/-- MultiTimeframeAnalyzer.arePointsSimilarEnhanced. -/
def arePointsSimilarEnhanced (cfg : Config) (p1 p2 : SwingPoint) : Bool :=
  decide (p1.type = p2.type) &&
  arePricesSimilar cfg p1 p2 &&
  decide (getTimeDifference p1.timestamp p2.timestamp ≤
    getMaxTimeDiffForTimeframes p1.timeframe p2.timeframe) &&
  areOpenCloseSimilar cfg p1 p2 &&
  areBarCharacteristicsSimilar cfg p1 p2

/-- JS fallbacks `p.bar?.field || p.price` used on cluster members (a present
field equal to 0 is falsy, hence falls back as well). -/
def jsOpenOf (p : SwingPoint) : ℚ :=
  match p.bar with
  | some b => if b.open_ = 0 then p.price else b.open_
  | none => p.price

def jsCloseOf (p : SwingPoint) : ℚ :=
  match p.bar with
  | some b => if b.close = 0 then p.price else b.close
  | none => p.price

def jsHighOf (p : SwingPoint) : ℚ :=
  match p.bar with
  | some b => if b.high = 0 then p.price else b.high
  | none => p.price

def jsLowOf (p : SwingPoint) : ℚ :=
  match p.bar with
  | some b => if b.low = 0 then p.price else b.low
  | none => p.price

/-- `p.bar?.volume || 0` (identical to the bar volume when present). -/
def jsVolumeOf (p : SwingPoint) : ℚ :=
  match p.bar with
  | some b => b.volume
  | none => 0

/-- `p.bar?.originalTimestamp || p.originalTimestamp || p.timestamp`: swing
points carry no own originalTimestamp field, and in JS the timestamps are
nonempty ISO strings, hence always truthy when present. -/
def jsOrigTsOf (p : SwingPoint) : ℚ :=
  match p.bar with
  | some b => b.originalTimestamp
  | none => p.timestamp

/-- Object.keys(typeCount).reduce((a,b) => typeCount[a] > typeCount[b] ? a : b):
keys are in first-occurrence order; ties go to the later key. -/
def dominantType (types : List SwingType) : SwingType :=
  match types.dedup with
  | [] => default
  | k :: ks => ks.foldl (fun a b => if types.count b < types.count a then a else b) k

/-- findMostCommonTimestamp: mode of the minute buckets (group key = the
timestamp truncated to the minute), first member of the first strictly-largest
group, falling back to the first timestamp. -/
def findMostCommonTimestamp (timestamps : List ℚ) : ℚ :=
  let bucket : ℚ → ℤ := fun t => ⌊t / 60000⌋
  let keys := (timestamps.map bucket).dedup
  (keys.foldl
    (fun acc k =>
      let g := timestamps.filter fun t => bucket t = k
      if acc.1 < g.length then (g.length, g.headD 0) else acc)
    (0, timestamps.headD 0)).2

/-- A qualified level as returned by createCommonPointEnhanced. -/
structure CommonPoint where
  type : SwingType
  price : ℚ
  strength : ℚ
  timestamp : ℚ
  originalTimestamp : ℚ
  timeframes : List String
  confirmationCount : ℕ
  qualityScore : ℚ
  openPrice : ℚ
  closePrice : ℚ
  highPrice : ℚ
  lowPrice : ℚ
  volume : ℚ
  priceVariance : ℚ
  openCloseVariance : ℚ
  allPoints : List SwingPoint
deriving Repr, DecidableEq

/-- MultiTimeframeAnalyzer.calculateQualityScore: the base term is
points.length × 10 (the SIZE of the cluster, not its timeframe count). -/
def calculateQualityScore (points : List SwingPoint) : ℚ :=
  let base : ℚ := (points.length : ℚ) * 10
  let priceVariance := calculatePriceVariance (points.map (·.price))
  let priceBonus : ℚ :=
    if priceVariance < 1 / 10000 then 20
    else if priceVariance < 5 / 10000 then 10
    else 0
  let openVariance := calculatePriceVariance (points.map jsOpenOf)
  let closeVariance := calculatePriceVariance (points.map jsCloseOf)
  let ocBonus : ℚ :=
    if openVariance < 1 / 10000 ∧ closeVariance < 1 / 10000 then 15 else 0
  let tfBonus : ℚ :=
    if 3 ≤ (points.map (·.timeframe)).dedup.length then 15 else 0
  base + priceBonus + ocBonus + tfBonus

/-- Quality score as the SPEC words it (for comparison with the code):
confirmationCount×10 — the number of DISTINCT TIMEFRAMES — plus the same
fixed bonuses. -/
def claimedQualityScore (points : List SwingPoint) : ℚ :=
  let base : ℚ := (((points.map (·.timeframe)).dedup).length : ℚ) * 10
  let priceVariance := calculatePriceVariance (points.map (·.price))
  let priceBonus : ℚ :=
    if priceVariance < 1 / 10000 then 20
    else if priceVariance < 5 / 10000 then 10
    else 0
  let openVariance := calculatePriceVariance (points.map jsOpenOf)
  let closeVariance := calculatePriceVariance (points.map jsCloseOf)
  let ocBonus : ℚ :=
    if openVariance < 1 / 10000 ∧ closeVariance < 1 / 10000 then 15 else 0
  let tfBonus : ℚ :=
    if 3 ≤ (points.map (·.timeframe)).dedup.length then 15 else 0
  base + priceBonus + ocBonus + tfBonus

/-- MultiTimeframeAnalyzer.createCommonPointEnhanced on a cluster; the
timeframesFound set is the deduplicated member timeframes (insertion order). -/
def createCommonPointEnhanced (cluster : List SwingPoint) : CommonPoint :=
  let tfs := (cluster.map (·.timeframe)).dedup
  let opens := cluster.map jsOpenOf
  let closes := cluster.map jsCloseOf
  { type := dominantType (cluster.map (·.type)),
    price := avgQ (cluster.map (·.price)),
    strength := avgQ (cluster.map (·.strength)),
    timestamp := findMostCommonTimestamp (cluster.map (·.timestamp)),
    originalTimestamp := findMostCommonTimestamp (cluster.map jsOrigTsOf),
    timeframes := tfs,
    confirmationCount := tfs.length,
    qualityScore := calculateQualityScore cluster,
    openPrice := avgQ opens,
    closePrice := avgQ closes,
    highPrice := avgQ (cluster.map jsHighOf),
    lowPrice := avgQ (cluster.map jsLowOf),
    volume := avgQ (cluster.map jsVolumeOf),
    priceVariance := calculatePriceVariance (cluster.map (·.price)),
    openCloseVariance := calculatePriceVariance (opens ++ closes),
    allPoints := cluster }

/-- The greedy clustering loop of findCommonSwingPoints in functional form:
the processed-index set is realised by filtering absorbed points out of the
remainder (each later point is compared with the cluster's SEED only). -/
def clusterLoop (cfg : Config) : List SwingPoint → List (List SwingPoint)
  | [] => []
  | p :: rest =>
    (p :: rest.filter fun q => arePointsSimilarEnhanced cfg p q) ::
      clusterLoop cfg (rest.filter fun q => ¬ arePointsSimilarEnhanced cfg p q)
termination_by l => l.length
decreasing_by
  simp only [List.length_cons]
  exact Nat.lt_succ_of_le (List.length_filter_le _ _)

/-- Stable insertion sort by timestamp, mirroring the stable JS Array.sort with
comparator (a, b) => new Date(a.timestamp) - new Date(b.timestamp). -/
def insertByTs (p : SwingPoint) : List SwingPoint → List SwingPoint
  | [] => [p]
  | q :: rest =>
    if q.timestamp < p.timestamp then q :: insertByTs p rest else p :: q :: rest

def sortByTimestamp (l : List SwingPoint) : List SwingPoint :=
  l.foldr insertByTs []

/-- MultiTimeframeAnalyzer.findCommonSwingPoints on the collected, timeframe-
tagged swing points of all timeframes: sort by timestamp, cluster greedily and
keep only clusters spanning at least two distinct timeframes. -/
def findCommonSwingPoints (cfg : Config) (allSwingPoints : List SwingPoint) :
    List CommonPoint :=
  (clusterLoop cfg (sortByTimestamp allSwingPoints)).filterMap fun cl =>
    if 1 < ((cl.map (·.timeframe)).dedup).length
    then some (createCommonPointEnhanced cl) else none

/-! ## SignalService -/

/-- JS Math.round (half-up, ties toward +∞). -/
def jsRound (q : ℚ) : ℤ := ⌊q + 1 / 2⌋

/-- SignalService.getLevelKey: the string `type_round(price*100)` is modelled
by the (injective) pair of its two components. -/
def levelKey (cp : CommonPoint) : SwingType × ℤ := (cp.type, jsRound (cp.price * 100))

/-- Signal types; checkForSignals only ever creates REVISIT signals, OTHER
stands for the default branch of determineBuySellSignals. -/
inductive SignalType
  | REVISIT
  | OTHER
deriving Repr, DecidableEq

/-- SignalService.determineBuySellSignals: (buySignal, sellSignal). -/
def determineBuySellSignals (t : SwingType) (st : SignalType) : Bool × Bool :=
  match st with
  | .REVISIT =>
    match t with
    | .SWING_LOW => (true, false)
    | .SWING_HIGH => (false, true)
  | .OTHER => (false, false)

def calculateSignalStrength (cp : CommonPoint) (c : Candle) : ℚ :=
  min ((cp.confirmationCount : ℚ) * 10 + cp.qualityScore * (1 / 2) +
    (if 0 < c.volume then 10 else 0)) 100

def calculateConfidenceLevel (cp : CommonPoint) (c : Candle) : ℚ :=
  min ((cp.confirmationCount : ℚ) * 25 + cp.qualityScore * (3 / 10) +
    (if 0 < c.volume then 10 else 0)) 100

/-- An emitted signal (the wall-clock `timestamp: new Date()` field is not
modelled; `strength` is the raw confirmationCount, as in createSignal). -/
structure Signal where
  candleTimestamp : ℚ
  signalType : SignalType
  commonPointType : SwingType
  commonPointPrice : ℚ
  currentPrice : ℚ
  strength : ℕ
  qualityScore : ℚ
  timeframes : List String
  volume : ℚ
  barRange : ℚ
  signalStrength : ℚ
  confidence : ℚ
  buySignal : Bool
  sellSignal : Bool
deriving Repr, DecidableEq

/-- SignalService.createSignal. -/
def createSignal (cp : CommonPoint) (c : Candle) (st : SignalType) : Signal :=
  let bs := determineBuySellSignals cp.type st
  { candleTimestamp := c.timestamp, signalType := st,
    commonPointType := cp.type, commonPointPrice := cp.price,
    currentPrice := c.close, strength := cp.confirmationCount,
    qualityScore := cp.qualityScore, timeframes := cp.timeframes,
    volume := c.volume, barRange := c.high - c.low,
    signalStrength := calculateSignalStrength cp c,
    confidence := calculateConfidenceLevel cp c,
    buySignal := bs.1, sellSignal := bs.2 }

/-- The processed-levels memo: the key set of SignalService.processedLevels
(its stored metadata values are never read back by the core logic). -/
abbrev ProcessedSet : Type := List (SwingType × ℤ)

/-- Loop body of SignalService.checkForSignals for one common point: skip if
the level's time does not strictly precede the bar's, skip if already
processed, emit and mark processed when the close is within tolerance.
The timestamps are nonempty ISO strings in JS, so the fallback
`commonPoint.originalTimestamp || commonPoint.timestamp` always takes the
first branch. -/
def checkOne (cfg : Config) (c : Candle) (acc : ProcessedSet × List Signal)
    (cp : CommonPoint) : ProcessedSet × List Signal :=
  if c.timestamp ≤ cp.originalTimestamp then acc
  else if levelKey cp ∈ acc.1 then acc
  else
    let priceDiff := |c.close - cp.price| / cp.price
    if priceDiff ≤ cfg.signalRevisitTolerance then
      (acc.1 ++ [levelKey cp], acc.2 ++ [createSignal cp c .REVISIT])
    else acc

/-- SignalService.checkForSignals: fold over the provided common points,
returning the updated processed set and the newly emitted signals. -/
def checkForSignals (cfg : Config) (s : ProcessedSet) (c : Candle)
    (commonPoints : List CommonPoint) : ProcessedSet × List Signal :=
  commonPoints.foldl (checkOne cfg c) (s, [])

/-- A lifetime of checkForSignals calls against one SignalService instance:
each event is a closed base bar together with the qualified-level set current
at that moment (re-qualification replaces the level list, but the processed
set persists — nothing in the source ever clears processedLevels). -/
def runSignals (cfg : Config) (s : ProcessedSet) :
    List (Candle × List CommonPoint) → ProcessedSet × List Signal
  | [] => (s, [])
  | (c, cps) :: rest =>
    let r := checkForSignals cfg s c cps
    let rr := runSignals cfg r.1 rest
    (rr.1, r.2 ++ rr.2)

/-- The levelKey recomputed from an emitted signal's recorded level data
(equal to the levelKey of the common point that produced it). -/
def sigKey (sg : Signal) : SwingType × ℤ :=
  (sg.commonPointType, jsRound (sg.commonPointPrice * 100))

/-! ## AnalyzerService (orchestrator) -/

/-- Orchestrator state relevant to the single-flight recomputation guard. -/
structure AnalyzerState where
  isAnalyzing : Bool
  lastAnalysisTime : ℤ
  analysisInterval : ℤ
  candlesSinceAnalysis : ℕ
  commonPoints : List CommonPoint
deriving Repr, DecidableEq

/-- AnalyzerService.performAnalysis. The try-block's content (multi-timeframe
aggregation, swing detection, consensus, store sync, CSV export) is abstracted
as `body`, which either returns the new common points or throws; the guard and
exception structure is modelled exactly: `isAnalyzing` is set on entry, the
catch block swallows any exception, the early not-enough-candles return and
the finally clause both clear `isAnalyzing`. -/
def performAnalysis (s : AnalyzerState) (allCandles : List Candle)
    (body : List Candle → Except String (List CommonPoint)) : AnalyzerState :=
  if s.isAnalyzing then s
  else
    let s1 := { s with isAnalyzing := true }
    if allCandles.length < 50 then { s1 with isAnalyzing := false }
    else
      match body allCandles with
      | .ok cps => { s1 with commonPoints := cps, isAnalyzing := false }
      | .error _ => { s1 with isAnalyzing := false }

/-- AnalyzerService.triggerAnalysis: no-op while a recomputation is in flight
or inside the minimum analysis interval; otherwise runs performAnalysis and
resets candlesSinceAnalysis / lastAnalysisTime. -/
def triggerAnalysis (s : AnalyzerState) (now : ℤ) (allCandles : List Candle)
    (body : List Candle → Except String (List CommonPoint)) : AnalyzerState :=
  if s.isAnalyzing then s
  else if 0 < s.analysisInterval ∧ now - s.lastAnalysisTime < s.analysisInterval then s
  else
    let s' := performAnalysis s allCandles body
    { s' with lastAnalysisTime := now, candlesSinceAnalysis := 0 }

/-! ## Ghost run of CandleService.addData with tick segments

`addDataSeg` mirrors addData branch for branch while additionally carrying the
list of ticks processed since the current bar was OPENED, excluding the
opening tick itself: the list is reset to [] whenever startNewCandle runs, the
closing tick is appended to the segment of the bar it closes, and every
in-bar tick is appended to the running segment. Each closed candle is emitted
together with its segment. -/

def tickVolSum (l : List (ℚ × ℚ × ℚ)) : ℚ := (l.map fun x => x.2.2).sum

def addDataSeg (interval : ℚ) (g : CandleState × List (ℚ × ℚ × ℚ))
    (t p v : ℚ) :
    (CandleState × List (ℚ × ℚ × ℚ)) × List (Candle × List (ℚ × ℚ × ℚ)) :=
  let s := g.1
  let seg := g.2
  match s.candleStartTime with
  | none => ((⟨some (startNewCandle t p), some t⟩, []), [])
  | some st =>
    let timeDiff := t - st
    if interval ≤ timeDiff then
      match s.currentCandle with
      | some c =>
        let closed : Candle :=
          { c with close := p, high := max c.high p,
                   low := min c.low p, volume := c.volume + v }
        ((⟨some (startNewCandle t p), some t⟩, []), [(closed, seg ++ [(t, p, v)])])
      | none => ((⟨some (startNewCandle t p), some t⟩, []), [])
    else
      match s.currentCandle with
      | none => ((⟨some (startNewCandle t p), some t⟩, []), [])
      | some c =>
        ((⟨some { c with high := max c.high p, low := min c.low p,
                          close := p, volume := c.volume + v },
           some st⟩, seg ++ [(t, p, v)]), [])

def runTicksSeg (interval : ℚ) (g : CandleState × List (ℚ × ℚ × ℚ)) :
    List (ℚ × ℚ × ℚ) →
      (CandleState × List (ℚ × ℚ × ℚ)) × List (Candle × List (ℚ × ℚ × ℚ))
  | [] => (g, [])
  | (t, p, v) :: rest =>
    let step := addDataSeg interval g t p v
    let next := runTicksSeg interval step.1 rest
    (next.1, step.2 ++ next.2)

/-! ## Abstract model of the ring buffer (proof artefact)

`modelStep` is the abstract effect of one push on the retained sequence:
append while below capacity, else drop the oldest and append. `RBInv` is the
representation invariant tying a concrete RingBuffer state to the retained
sequence it stores. -/

def modelStep (C : ℕ) {α : Type} (acc : List α) (x : α) : List α :=
  if acc.length < C then acc ++ [x] else acc.drop 1 ++ [x]

def modelRun (C : ℕ) {α : Type} (xs : List α) : List α :=
  xs.foldl (modelStep C) []

def RBInv {α : Type} (C : ℕ) (rb : RingBuffer α) (l : List α) : Prop :=
  rb.capacity = C ∧ rb.buffer.length = C ∧ rb.size = l.length ∧ l.length ≤ C ∧
  rb.head < C ∧ rb.tail = (rb.head + l.length) % C ∧
  ∀ i, i < l.length → rb.buffer.getD ((rb.head + i) % C) none = l.get? i

/-- Invariant of the instrumented aggregator run: the current bar's volume
equals the volume sum of the ticks seen since it opened (opener excluded). -/
def SegInv (g : CandleState × List (ℚ × ℚ × ℚ)) : Prop :=
  ∀ c, g.1.currentCandle = some c → c.volume = tickVolSum g.2

/-- Number of emitted signals recorded against a given levelKey. -/
def countK (k : SwingType × ℤ) (l : List Signal) : ℕ :=
  l.countP fun sg => decide (sigKey sg = k)

/-! ## Concrete example data -/

/-- Eleven bars with highs 1,1,1,1,1,1.05,1,1,1,1,1 (flat lows/closes), the
swing-detection example of the spec. -/
def c3bars : List PriceBar :=
  [⟨0, 1, 1, 1, 1, 0, 0⟩, ⟨1000, 1, 1, 1, 1, 0, 1000⟩,
   ⟨2000, 1, 1, 1, 1, 0, 2000⟩, ⟨3000, 1, 1, 1, 1, 0, 3000⟩,
   ⟨4000, 1, 1, 1, 1, 0, 4000⟩, ⟨5000, 1, 21 / 20, 1, 1, 0, 5000⟩,
   ⟨6000, 1, 1, 1, 1, 0, 6000⟩, ⟨7000, 1, 1, 1, 1, 0, 7000⟩,
   ⟨8000, 1, 1, 1, 1, 0, 8000⟩, ⟨9000, 1, 1, 1, 1, 0, 9000⟩,
   ⟨10000, 1, 1, 1, 1, 0, 10000⟩]

/-- A qualified level: SWING_LOW at price 100, originated at t = 0. -/
def c4lvl : CommonPoint :=
  { type := .SWING_LOW, price := 100, strength := 1, timestamp := 0,
    originalTimestamp := 0, timeframes := ["15s", "1m"], confirmationCount := 2,
    qualityScore := 40, openPrice := 100, closePrice := 100, highPrice := 101,
    lowPrice := 99, volume := 5, priceVariance := 0, openCloseVariance := 0,
    allPoints := [] }

/-- A base bar closing at 100.1 (0.1% from the level, within tolerance). -/
def c4bar1 : Candle := ⟨1000, 100, 101, 100, 1001 / 10, 2, 1000⟩

/-- A later base bar closing at 100.05, also within tolerance. -/
def c4bar2 : Candle := ⟨2000, 100, 101, 100, 2001 / 20, 2, 2000⟩

/-- Swing-high point at the given price on the given timeframe, carrying a
bar snapshot with identical open/close across the cluster. -/
def c5pt (tf : String) (price : ℚ) : SwingPoint :=
  { timestamp := 0, price := price, type := .SWING_HIGH, strength := 1,
    index := 5, timeframe := tf,
    bar := some ⟨0, 995, price, 990, 996, 5, 0⟩,
    barRange := price - 990, bodySize := 1, isBullish := true }

/-- Three mutually similar swing highs: two on the 15s timeframe, one on 1m
(cluster size 3, spanning exactly 2 distinct timeframes). -/
def c5pts : List SwingPoint :=
  [c5pt "15s" 1000, c5pt "15s" (5002 / 5), c5pt "1m" (5002 / 5)]

/-! # Theorems -/

/-- The finally clause of performAnalysis: whenever the analysis actually
runs, the guard ends up cleared, whatever the body did. -/
lemma performAnalysis_clears (s : AnalyzerState) (allCandles : List Candle)
    (body : List Candle → Except String (List CommonPoint))
    (h : s.isAnalyzing = false) :
    (performAnalysis s allCandles body).isAnalyzing = false := by
  unfold performAnalysis
  rw [if_neg (by simp [h])]
  dsimp only
  split
  · rfl
  · split <;> rfl

/-- C8: triggering the full recomputation while one is already running is a
no-op on the orchestrator state (the second trigger is dropped, not queued),
and whenever the recomputation actually runs, the single-flight guard
isAnalyzing is cleared afterwards for EVERY outcome of the analysis body,
including a thrown exception (and including the early not-enough-candles
return). -/
theorem C8_single_flight_guard (s : AnalyzerState) (now : ℤ)
    (allCandles : List Candle)
    (body : List Candle → Except String (List CommonPoint)) :
    (s.isAnalyzing = true → triggerAnalysis s now allCandles body = s) ∧
    (s.isAnalyzing = false →
      (triggerAnalysis s now allCandles body).isAnalyzing = false) ∧
    (s.isAnalyzing = false →
      (performAnalysis s allCandles body).isAnalyzing = false) := by
  refine ⟨fun h => ?_, fun h => ?_, fun h => ?_⟩
  · simp [triggerAnalysis, h]
  · unfold triggerAnalysis
    rw [if_neg (by simp [h])]
    split
    · exact h
    · exact performAnalysis_clears s allCandles body h
  · exact performAnalysis_clears s allCandles body h

/-- C8 witness: a busy guard drops the trigger unchanged; from an idle state a
throwing body still leaves the guard cleared. -/
theorem C8_single_flight_guard_witness :
    (triggerAnalysis ⟨true, 0, 0, 0, []⟩ 5 [] (fun _ => .error "boom") =
      ⟨true, 0, 0, 0, []⟩) ∧
    (triggerAnalysis ⟨false, 0, 0, 0, []⟩ 5 (List.replicate 60 default)
      (fun _ => .error "boom")).isAnalyzing = false ∧
    (performAnalysis ⟨false, 0, 0, 0, []⟩ (List.replicate 60 default)
      (fun _ => .error "boom")).isAnalyzing = false :=
  ⟨(C8_single_flight_guard ⟨true, 0, 0, 0, []⟩ 5 [] (fun _ => .error "boom")).1 rfl,
   (C8_single_flight_guard ⟨false, 0, 0, 0, []⟩ 5 (List.replicate 60 default)
      (fun _ => .error "boom")).2.1 rfl,
   (C8_single_flight_guard ⟨false, 0, 0, 0, []⟩ 5 (List.replicate 60 default)
      (fun _ => .error "boom")).2.2 rfl⟩

/-- C7: for a closed base bar and a qualified level, the loop body of
checkForSignals emits a signal (and marks the level processed) precisely when
the level's originalTimestamp strictly precedes the bar's timestamp, its
levelKey is not processed yet, and the bar close is within
signalRevisitTolerance of the level price; the emitted REVISIT signal's buy
flag is set exactly for SWING_LOW levels and its sell flag exactly for
SWING_HIGH levels (level types are two-valued in this system). -/
theorem C7_revisit_signal_characterisation (cfg : Config) (c : Candle)
    (s : ProcessedSet) (sigs : List Signal) (cp : CommonPoint) :
    (checkOne cfg c (s, sigs) cp =
      if cp.originalTimestamp < c.timestamp ∧ levelKey cp ∉ s ∧
          |c.close - cp.price| / cp.price ≤ cfg.signalRevisitTolerance
      then (s ++ [levelKey cp], sigs ++ [createSignal cp c .REVISIT])
      else (s, sigs)) ∧
    ((createSignal cp c .REVISIT).buySignal ↔ cp.type = .SWING_LOW) ∧
    ((createSignal cp c .REVISIT).sellSignal ↔ cp.type = .SWING_HIGH) := by
  refine ⟨?_, ?_, ?_⟩
  · simp only [checkOne]
    by_cases h1 : c.timestamp ≤ cp.originalTimestamp
    · rw [if_pos h1, if_neg (by simp [not_lt.mpr h1])]
    · rw [if_neg h1]
      by_cases h2 : levelKey cp ∈ s
      · rw [if_pos h2, if_neg (by simp [h2])]
      · rw [if_neg h2]
        by_cases h3 : |c.close - cp.price| / cp.price ≤ cfg.signalRevisitTolerance
        · rw [if_pos h3, if_pos ⟨not_le.mp h1, h2, h3⟩]
        · rw [if_neg h3, if_neg (by simp [h3])]
  · cases h : cp.type <;>
      simp [createSignal, determineBuySellSignals, h]
  · cases h : cp.type <;>
      simp [createSignal, determineBuySellSignals, h]

/-- C1 counterexample: for ticks at t=0 ms price 10, t=500 ms price 12,
t=1200 ms price 9 with a 1000 ms interval, the first closed bar has low 9 and
close 9 — the boundary-crossing tick's price IS folded into the closing bar —
whereas the claim predicts low 10 and close 12. -/
theorem C1_counterexample :
    ((runTicks 1000 initialCandleState
        [(0, 10, 0), (500, 12, 0), (1200, 9, 0)]).2 =
      [{ timestamp := 0, open_ := 10, high := 12, low := 9, close := 9,
         volume := 0, originalTimestamp := 0 }]) ∧
    ¬ ((runTicks 1000 initialCandleState
        [(0, 10, 0), (500, 12, 0), (1200, 9, 0)]).2.map
          (fun c => (c.open_, c.high, c.low, c.close)) =
        [((10 : ℚ), (12 : ℚ), (10 : ℚ), (12 : ℚ))]) := by
  constructor
  · norm_num [runTicks, addData, startNewCandle, initialCandleState]
  · norm_num [runTicks, addData, startNewCandle, initialCandleState]

/-- C1 (amended): when a tick arrives at least one interval past the open
bar's start time, the bar is closed with the boundary-crossing tick folded
into its final OHLC — close := tick price, high := max(high, price),
low := min(low, price), volume += tick volume — and a new bar starts at the
tick's own timestamp (so for ticks at t=0s p=10, t=0.5s p=12, t=1.2s p=9 the
first closed bar is open 10, high 12, low 9, close 9, and a new bar starts at
t=1.2s). -/
theorem C1_boundary_tick_folded (interval : ℚ) (c : Candle) (st t p v : ℚ)
    (h : interval ≤ t - st) :
    addData interval ⟨some c, some st⟩ t p v =
      (⟨some (startNewCandle t p), some t⟩,
       [{ c with close := p, high := max c.high p, low := min c.low p,
                 volume := c.volume + v }]) := by
  simp [addData, h]

/-- C1 witness: the amended rule applied at the concrete boundary tick t=1200,
price 9 against the bar built from the first two ticks. -/
theorem C1_boundary_tick_folded_witness :
    addData 1000
      ⟨some { timestamp := 0, open_ := 10, high := 12, low := 10, close := 12,
              volume := 0, originalTimestamp := 0 }, some 0⟩ 1200 9 0 =
      (⟨some (startNewCandle 1200 9), some 1200⟩,
       [{ timestamp := 0, open_ := 10, high := max 12 9, low := min 10 9,
          close := 9, volume := 0 + 0, originalTimestamp := 0 }]) :=
  C1_boundary_tick_folded 1000
    { timestamp := 0, open_ := 10, high := 12, low := 10, close := 12,
      volume := 0, originalTimestamp := 0 } 0 1200 9 0 (by norm_num)

/-- C2 counterexample: after a bar opened by the candle at t=1200 ms with
close 9 (so the last close carried from before the gap is 9), the candle
arriving at t=5200 ms with close 20 produces three flat bars for the intervals
starting at 2000/3000/4000 ms — the claimed count — but their OHLC is 20, the
close of the INCOMING post-gap candle, not the pre-gap close 9. -/
theorem C2_counterexample :
    ((processTimeframe 1000 initialMtfState
        ⟨1200, 9, 9, 9, 9, 0, 1200⟩).1.currentCandle.map Candle.close =
      some 9) ∧
    (((processTimeframe 1000
        (processTimeframe 1000 initialMtfState ⟨1200, 9, 9, 9, 9, 0, 1200⟩).1
        ⟨5200, 20, 21, 19, 20, 3, 5200⟩).2.drop 1).map
          (fun g => (g.timestamp, g.open_, g.high, g.low, g.close, g.volume)) =
      [((2000 : ℚ), (20 : ℚ), (20 : ℚ), (20 : ℚ), (20 : ℚ), (0 : ℚ)),
       (3000, 20, 20, 20, 20, 0), (4000, 20, 20, 20, 20, 0)]) ∧
    (20 : ℚ) ≠ 9 := by
  refine ⟨?_, ?_, by norm_num⟩
  · norm_num [processTimeframe, initialMtfState, mtfStartNewCandle]
  · norm_num [processTimeframe, initialMtfState, mtfStartNewCandle, emptyCandle]
    norm_num [show Int.toNat 4 - 1 = 3 from rfl, List.range_succ]

/-- C2 (amended): when a candle arrives at least one interval past the open
bar's start, the stored output is the finalized bar followed by exactly
intervalsSkipped − 1 synthetic flat bars for the skipped periods (intervals
starting at startTime + k·interval for k = 1, …, intervalsSkipped − 1), each
with open = high = low = close = the CLOSE OF THE INCOMING POST-GAP CANDLE
(which also becomes the finalized bar's close) and volume = 0, before the bar
containing the current candle is started. -/
theorem C2_gap_fill_bars (interval : ℚ) (cur : Candle) (st : ℚ) (c : Candle)
    (hpos : 0 < interval) (h : interval ≤ c.timestamp - st) :
    ((processTimeframe interval ⟨some cur, some st⟩ c).2 =
      { cur with close := c.close, high := max cur.high c.high,
                 low := min cur.low c.low, volume := cur.volume + c.volume } ::
        (List.range (⌊(c.timestamp - st) / interval⌋.toNat - 1)).map
          (fun k => emptyCandle (st + (k + 1 : ℕ) * interval) c.close)) ∧
    (((processTimeframe interval ⟨some cur, some st⟩ c).2.drop 1).length =
      ⌊(c.timestamp - st) / interval⌋.toNat - 1) ∧
    (∀ g ∈ (processTimeframe interval ⟨some cur, some st⟩ c).2.drop 1,
      g.open_ = c.close ∧ g.high = c.close ∧ g.low = c.close ∧
        g.close = c.close ∧ g.volume = 0) := by
  have hmain : (processTimeframe interval ⟨some cur, some st⟩ c).2 =
      { cur with close := c.close, high := max cur.high c.high,
                 low := min cur.low c.low, volume := cur.volume + c.volume } ::
        (List.range (⌊(c.timestamp - st) / interval⌋.toNat - 1)).map
          (fun k => emptyCandle (st + (k + 1 : ℕ) * interval) c.close) := by
    unfold processTimeframe
    dsimp only
    rw [if_pos h]
    dsimp only
    split
    · rfl
    · rename_i hskip
      have h1 : ⌊(c.timestamp - st) / interval⌋ ≤ 1 := not_lt.mp hskip
      have h0 : ⌊(c.timestamp - st) / interval⌋.toNat - 1 = 0 := by omega
      rw [h0]
      rfl
  refine ⟨hmain, ?_, ?_⟩
  · rw [hmain]
    simp
  · intro g hg
    rw [hmain] at hg
    simp only [List.drop_succ_cons, List.drop_zero, List.mem_map] at hg
    obtain ⟨k, -, rfl⟩ := hg
    simp [emptyCandle]

/-- C2 witness: the amended rule at interval 1000 ms, open bar started at
st = 1000 with running close 9, incoming candle at t = 5200 with close 20:
intervalsSkipped = 4, so exactly 3 flat bars at 2000/3000/4000, all at 20. -/
theorem C2_gap_fill_bars_witness :
    (processTimeframe 1000
        ⟨some { timestamp := 1000, open_ := 9, high := 9, low := 9, close := 9,
                volume := 0, originalTimestamp := 1200 }, some 1000⟩
        ⟨5200, 20, 21, 19, 20, 3, 5200⟩).2 =
      { timestamp := 1000, open_ := 9, high := max 9 21, low := min 9 19,
        close := 20, volume := 0 + 3, originalTimestamp := 1200 } ::
        (List.range (⌊((5200 : ℚ) - 1000) / 1000⌋.toNat - 1)).map
          (fun k => emptyCandle (1000 + (k + 1 : ℕ) * 1000) 20) :=
  (C2_gap_fill_bars 1000
    { timestamp := 1000, open_ := 9, high := 9, low := 9, close := 9,
      volume := 0, originalTimestamp := 1200 } 1000
    ⟨5200, 20, 21, 19, 20, 3, 5200⟩ (by norm_num) (by norm_num)).1

/-! ## Ring buffer lemmas -/

lemma getD_set_self {β : Type} (l : List β) (i : ℕ) (h : i < l.length)
    (a d : β) : (l.set i a).getD i d = a := by
  induction l generalizing i with
  | nil => simp at h
  | cons hd tl ih =>
    cases i with
    | zero => rfl
    | succ n => exact ih n (by simpa using h)

lemma getD_set_ne {β : Type} (l : List β) (i j : ℕ) (h : i ≠ j)
    (a d : β) : (l.set i a).getD j d = l.getD j d := by
  induction l generalizing i j with
  | nil => simp [List.set]
  | cons hd tl ih =>
    cases i with
    | zero =>
      cases j with
      | zero => exact absurd rfl h
      | succ m => rfl
    | succ n =>
      cases j with
      | zero => rfl
      | succ m => exact ih n m (by omega)

lemma mod_shift_inj {C h a b : ℕ} (hC : 0 < C) (ha : a < C) (hb : b < C)
    (hmod : (h + a) % C = (h + b) % C) : a = b := by
  have hcongr : a ≡ b [MOD C] := Nat.ModEq.add_left_cancel' h hmod
  calc a = a % C := (Nat.mod_eq_of_lt ha).symm
    _ = b % C := hcongr
    _ = b := Nat.mod_eq_of_lt hb

lemma RBInv_empty {α : Type} (C : ℕ) (hC : 0 < C) :
    RBInv C (RingBuffer.empty α C) [] := by
  refine ⟨rfl, by simp [RingBuffer.empty], rfl, by simp, hC, by simp [RingBuffer.empty], ?_⟩
  intro i hi
  simp at hi

lemma RBInv_push {α : Type} {C : ℕ} {rb : RingBuffer α} {l : List α}
    (hC : 0 < C) (h : RBInv C rb l) (x : α) :
    RBInv C (rb.push x) (modelStep C l x) := by
  obtain ⟨hcap, hbuf, hsize, hlen, hhead, htail, hget⟩ := h
  have htail_lt : rb.tail < C := by
    rw [htail]; exact Nat.mod_lt _ hC
  by_cases hlt : l.length < C
  · have hcond : rb.size < rb.capacity := by rw [hsize, hcap]; exact hlt
    have hpush : rb.push x =
        { rb with buffer := rb.buffer.set rb.tail (some x),
                  tail := (rb.tail + 1) % rb.capacity, size := rb.size + 1 } := by
      unfold RingBuffer.push
      rw [if_pos hcond]
    have hmodel : modelStep C l x = l ++ [x] := by
      unfold modelStep
      rw [if_pos hlt]
    rw [hpush, hmodel]
    refine ⟨hcap, by simpa using hbuf, by simp [hsize], by simpa using hlt,
      hhead, ?_, ?_⟩
    · show (rb.tail + 1) % rb.capacity = (rb.head + (l ++ [x]).length) % C
      rw [List.length_append, List.length_singleton, hcap, htail,
        Nat.mod_add_mod, Nat.add_assoc]
    · intro i hi
      simp only [List.length_append, List.length_singleton] at hi
      by_cases hieq : i = l.length
      · subst hieq
        have hidx : (rb.head + l.length) % C = rb.tail := htail.symm
        show (rb.buffer.set rb.tail (some x)).getD ((rb.head + l.length) % C) none =
          (l ++ [x]).get? l.length
        rw [hidx, getD_set_self rb.buffer rb.tail (by rw [hbuf]; exact htail_lt)]
        exact (List.get?_concat_length l x).symm
      · have hilt : i < l.length := by omega
        have hne : rb.tail ≠ (rb.head + i) % C := by
          rw [htail]
          intro hcontra
          exact absurd (mod_shift_inj hC hlt (lt_trans hilt hlt) hcontra) (by omega)
        show (rb.buffer.set rb.tail (some x)).getD ((rb.head + i) % C) none = _
        rw [getD_set_ne rb.buffer _ _ hne, hget i hilt,
          List.get?_append hilt]
  · have hleq : l.length = C := le_antisymm hlen (not_lt.mp hlt)
    have hcond : ¬ rb.size < rb.capacity := by rw [hsize, hcap]; exact hlt
    have hpush : rb.push x =
        { rb with buffer := rb.buffer.set rb.tail (some x),
                  tail := (rb.tail + 1) % rb.capacity,
                  head := (rb.head + 1) % rb.capacity } := by
      unfold RingBuffer.push
      rw [if_neg hcond]
    have hmodel : modelStep C l x = l.drop 1 ++ [x] := by
      unfold modelStep
      rw [if_neg hlt]
    have htail_head : rb.tail = rb.head := by
      rw [htail, hleq, Nat.add_mod_right, Nat.mod_eq_of_lt hhead]
    have hlen' : (l.drop 1 ++ [x]).length = C := by
      simp [hleq]
      omega
    rw [hpush, hmodel]
    refine ⟨hcap, by simpa using hbuf, by simp [hsize, hleq]; omega,
      le_of_eq hlen', by rw [hcap]; exact Nat.mod_lt _ hC, ?_, ?_⟩
    · show (rb.tail + 1) % rb.capacity =
        ((rb.head + 1) % rb.capacity + (l.drop 1 ++ [x]).length) % C
      rw [hcap, hlen', htail_head, Nat.mod_add_mod, Nat.add_mod_right]
    · intro i hi
      rw [hlen'] at hi
      show (rb.buffer.set rb.tail (some x)).getD
        (((rb.head + 1) % rb.capacity + i) % C) none = _
      rw [hcap, Nat.mod_add_mod]
      by_cases hieq : i = C - 1
      · subst hieq
        have hidx : (rb.head + 1 + (C - 1)) % C = rb.tail := by
          rw [htail_head]
          have : rb.head + 1 + (C - 1) = rb.head + C := by omega
          rw [this, Nat.add_mod_right, Nat.mod_eq_of_lt hhead]
        rw [hidx, getD_set_self rb.buffer rb.tail (by rw [hbuf]; exact htail_lt)]
        have hdlen : (l.drop 1).length = C - 1 := by simp [hleq]
        rw [← hdlen, List.get?_concat_length]
      · have hilt : i < C - 1 := by omega
        have hne : rb.tail ≠ (rb.head + 1 + i) % C := by
          rw [htail_head]
          intro hcontra
          have e1 : rb.head + 1 + i = rb.head + (1 + i) := by ring
          rw [e1] at hcontra
          have hcontra' : (rb.head + 0) % C = (rb.head + (1 + i)) % C := by
            rw [Nat.add_zero, Nat.mod_eq_of_lt hhead]
            exact hcontra
          have h01 := mod_shift_inj hC hC (by omega : 1 + i < C) hcontra'
          omega
        rw [getD_set_ne rb.buffer _ _ hne]
        have harr : rb.head + 1 + i = rb.head + (i + 1) := by ring
        rw [harr, hget (i + 1) (by omega)]
        have hdlen : (l.drop 1).length = C - 1 := by simp [hleq]
        rw [List.get?_append (by rw [hdlen]; exact hilt), List.get?_drop]
        congr 1
        omega

lemma RBInv_getAll {α : Type} {C : ℕ} {rb : RingBuffer α} {l : List α}
    (hC : 0 < C) (h : RBInv C rb l) : rb.getAll = l.map some := by
  obtain ⟨hcap, hbuf, hsize, hlen, hhead, htail, hget⟩ := h
  unfold RingBuffer.getAll
  by_cases h0 : rb.size = 0
  · rw [if_pos h0]
    have : l = [] := by
      cases l with
      | nil => rfl
      | cons a t => simp [hsize] at h0
    rw [this]
    rfl
  · rw [if_neg h0]
    apply List.ext
    intro n
    rw [List.get?_map]
    by_cases hn : n < rb.size
    · rw [List.get?_map, List.get?_range hn]
      have hn' : n < l.length := by rw [← hsize]; exact hn
      have hval := hget n hn'
      obtain ⟨a, ha⟩ : ∃ a, l.get? n = some a :=
        ⟨l.get ⟨n, hn'⟩, List.get?_eq_get hn'⟩
      show some (rb.buffer.getD ((rb.head + n) % rb.capacity) none) =
        Option.map some (l.get? n)
      rw [hcap, hval, ha]
      rfl
    · have h1 : (List.range rb.size).get? n = none := by
        rw [List.get?_eq_none]
        simpa using not_lt.mp hn
      rw [List.get?_map, h1]
      have h2 : l.get? n = none := by
        rw [List.get?_eq_none, ← hsize]
        exact not_lt.mp hn
      rw [h2]
      rfl

lemma RBInv_pushAll {α : Type} {C : ℕ} (hC : 0 < C) :
    ∀ (xs : List α) (rb : RingBuffer α) (l : List α), RBInv C rb l →
      RBInv C (rb.pushAll xs) (xs.foldl (modelStep C) l)
  | [], rb, l, h => h
  | x :: xs, rb, l, h =>
    RBInv_pushAll hC xs (rb.push x) (modelStep C l x) (RBInv_push hC h x)

/-- The retained sequence after pushing xs into an empty buffer of capacity C
is the suffix of the last min(|xs|, C) pushes. -/
lemma modelRun_eq_suffix {α : Type} (C : ℕ) (hC : 0 < C) (xs : List α) :
    modelRun C xs = xs.drop (xs.length - C) ∧
      (modelRun C xs).length = min xs.length C := by
  induction xs using List.reverseRecOn with
  | nil => simp [modelRun]
  | append_singleton xs x ih =>
    obtain ⟨ih1, ih2⟩ := ih
    have hstep : modelRun C (xs ++ [x]) = modelStep C (modelRun C xs) x := by
      unfold modelRun
      rw [List.foldl_append]
      rfl
    by_cases hlt : xs.length < C
    · have hm : modelStep C (modelRun C xs) x = modelRun C xs ++ [x] := by
        unfold modelStep
        rw [if_pos (by rw [ih2]; omega)]
      constructor
      · rw [hstep, hm, ih1]
        have h1 : xs.length - C = 0 := by omega
        have h2 : (xs ++ [x]).length - C = 0 := by simp; omega
        rw [h1, h2, List.drop_zero, List.drop_zero]
      · rw [hstep, hm]
        simp [ih2]
        omega
    · have hm : modelStep C (modelRun C xs) x = (modelRun C xs).drop 1 ++ [x] := by
        unfold modelStep
        rw [if_neg (by rw [ih2]; omega)]
      constructor
      · rw [hstep, hm, ih1, List.drop_drop]
        have h1 : xs.length - C + 1 = (xs ++ [x]).length - C := by simp; omega
        rw [List.drop_append_of_le_length (by simp; omega), ← h1]
      · rw [hstep, hm]
        simp [ih2]
        omega

/-- C9 (amended): pushing any sequence into a ring buffer of capacity C ≥ 1
retains at most C entries (exactly min(|xs|, C), the oldest evicted first),
getAll returns the retained entries oldest→newest, and for every n ≥ 1,
getRecent n returns exactly the last n retained entries (all of them when
fewer than n are retained). For n = 0 getRecent returns ALL retained entries
(JS slice(-0) = slice(0)), not the empty list the claim implies. -/
theorem C9_ring_buffer_retention (α : Type) (C : ℕ) (hC : 0 < C)
    (xs : List α) :
    (RingBuffer.pushAll (RingBuffer.empty α C) xs).size ≤ C ∧
    (RingBuffer.pushAll (RingBuffer.empty α C) xs).size = min xs.length C ∧
    (RingBuffer.pushAll (RingBuffer.empty α C) xs).getAll =
      (xs.drop (xs.length - C)).map some ∧
    (∀ n : ℕ, 1 ≤ n →
      (RingBuffer.pushAll (RingBuffer.empty α C) xs).getRecent n =
        ((xs.drop (xs.length - C)).drop (min xs.length C - n)).map some) := by
  have hinv := RBInv_pushAll hC xs (RingBuffer.empty α C) [] (RBInv_empty C hC)
  have hmodel := modelRun_eq_suffix C hC xs
  have hrun : xs.foldl (modelStep C) [] = modelRun C xs := rfl
  rw [hrun] at hinv
  obtain ⟨hm1, hm2⟩ := hmodel
  have hsize : (RingBuffer.pushAll (RingBuffer.empty α C) xs).size =
      min xs.length C := by
    rw [hinv.2.2.1, ← hm2, hm1]
  have hall : (RingBuffer.pushAll (RingBuffer.empty α C) xs).getAll =
      (xs.drop (xs.length - C)).map some := by
    rw [RBInv_getAll hC hinv, hm1]
  refine ⟨by rw [hsize]; omega, hsize, hall, ?_⟩
  intro n hn
  unfold RingBuffer.getRecent
  rw [if_neg (by omega)]
  rw [hall]
  rw [List.length_map, List.length_drop]
  rw [← List.map_drop]
  congr 2
  omega

/-- C9 witness: capacity 3, pushes [1,2,3,4]: exactly 3 entries retained with
the oldest (1) evicted first, getAll chronological, getRecent 2 the last two. -/
theorem C9_ring_buffer_retention_witness :
    (RingBuffer.pushAll (RingBuffer.empty ℕ 3) [1, 2, 3, 4]).size = 3 ∧
    (RingBuffer.pushAll (RingBuffer.empty ℕ 3) [1, 2, 3, 4]).getAll =
      [some 2, some 3, some 4] ∧
    (RingBuffer.pushAll (RingBuffer.empty ℕ 3) [1, 2, 3, 4]).getRecent 2 =
      [some 3, some 4] := by
  have h := C9_ring_buffer_retention ℕ 3 (by norm_num) [1, 2, 3, 4]
  refine ⟨by rw [h.2.1]; rfl, ?_, ?_⟩
  · rw [h.2.2.1]
    rfl
  · rw [h.2.2.2 2 (by norm_num)]
    rfl

/-- C9 counterexample: with three entries retained, getRecent 0 returns all
three retained entries (the JS slice(-0) quirk), not the last 0 entries (the
empty list) required by the claim's "for every n ≥ 0". -/
theorem C9_counterexample :
    (RingBuffer.pushAll (RingBuffer.empty ℕ 3) [1, 2, 3]).getRecent 0 =
      [some 1, some 2, some 3] ∧
    (RingBuffer.pushAll (RingBuffer.empty ℕ 3) [1, 2, 3]).getRecent 0 ≠ [] := by
  constructor
  · rfl
  · decide

/-! ## Volume accounting lemmas (C10) -/

lemma tickVolSum_append (l : List (ℚ × ℚ × ℚ)) (x : ℚ × ℚ × ℚ) :
    tickVolSum (l ++ [x]) = tickVolSum l + x.2.2 := by
  simp [tickVolSum]

lemma addDataSeg_proj (interval : ℚ) (g : CandleState × List (ℚ × ℚ × ℚ))
    (t p v : ℚ) :
    (addDataSeg interval g t p v).1.1 = (addData interval g.1 t p v).1 ∧
    ((addDataSeg interval g t p v).2).map Prod.fst =
      (addData interval g.1 t p v).2 := by
  obtain ⟨⟨cur, st0⟩, seg⟩ := g
  unfold addDataSeg addData
  dsimp only
  cases st0 with
  | none => exact ⟨rfl, rfl⟩
  | some st =>
    dsimp only
    split <;> cases cur <;> exact ⟨rfl, rfl⟩

lemma addDataSeg_inv (interval : ℚ) (g : CandleState × List (ℚ × ℚ × ℚ))
    (t p v : ℚ) (h : SegInv g) :
    SegInv (addDataSeg interval g t p v).1 ∧
    ∀ pr ∈ (addDataSeg interval g t p v).2, pr.1.volume = tickVolSum pr.2 := by
  obtain ⟨⟨cur, st0⟩, seg⟩ := g
  unfold addDataSeg
  dsimp only
  cases st0 with
  | none =>
    refine ⟨?_, by simp⟩
    intro c hc
    simp only [Option.some_inj] at hc
    simp [← hc, startNewCandle, tickVolSum]
  | some st =>
    dsimp only
    split
    · cases cur with
      | some c =>
        refine ⟨?_, ?_⟩
        · intro c' hc'
          simp only [Option.some_inj] at hc'
          simp [← hc', startNewCandle, tickVolSum]
        · intro pr hpr
          simp only [List.mem_singleton] at hpr
          subst hpr
          have hv := h c rfl
          simp only [tickVolSum_append]
          simpa using congrArg (· + v) hv
      | none =>
        refine ⟨?_, by simp⟩
        intro c' hc'
        simp only [Option.some_inj] at hc'
        simp [← hc', startNewCandle, tickVolSum]
    · cases cur with
      | none =>
        refine ⟨?_, by simp⟩
        intro c' hc'
        simp only [Option.some_inj] at hc'
        simp [← hc', startNewCandle, tickVolSum]
      | some c =>
        refine ⟨?_, by simp⟩
        intro c' hc'
        simp only [Option.some_inj] at hc'
        have hv := h c rfl
        rw [← hc']
        simp only [tickVolSum_append]
        simpa using congrArg (· + v) hv

lemma runTicksSeg_spec (interval : ℚ) :
    ∀ (ticks : List (ℚ × ℚ × ℚ)) (g : CandleState × List (ℚ × ℚ × ℚ)),
      SegInv g →
      ((runTicksSeg interval g ticks).1.1 = (runTicks interval g.1 ticks).1 ∧
       ((runTicksSeg interval g ticks).2).map Prod.fst =
         (runTicks interval g.1 ticks).2 ∧
       ∀ pr ∈ (runTicksSeg interval g ticks).2, pr.1.volume = tickVolSum pr.2)
  | [], g, h => ⟨rfl, rfl, by simp [runTicksSeg]⟩
  | (t, p, v) :: rest, g, h => by
    have hproj := addDataSeg_proj interval g t p v
    have hinv := addDataSeg_inv interval g t p v h
    have ih := runTicksSeg_spec interval rest (addDataSeg interval g t p v).1
      hinv.1
    refine ⟨?_, ?_, ?_⟩
    · show (runTicksSeg interval (addDataSeg interval g t p v).1 rest).1.1 =
        (runTicks interval (addData interval g.1 t p v).1 rest).1
      rw [← hproj.1]
      exact ih.1
    · show ((addDataSeg interval g t p v).2 ++
          (runTicksSeg interval (addDataSeg interval g t p v).1 rest).2).map
            Prod.fst =
        (addData interval g.1 t p v).2 ++
          (runTicks interval (addData interval g.1 t p v).1 rest).2
      rw [List.map_append, hproj.2, ← hproj.1]
      rw [ih.2.1]
    · intro pr hpr
      show pr.1.volume = tickVolSum pr.2
      have : pr ∈ (addDataSeg interval g t p v).2 ∨
          pr ∈ (runTicksSeg interval (addDataSeg interval g t p v).1 rest).2 := by
        simpa using List.mem_append.mp hpr
      cases this with
      | inl hmem => exact hinv.2 pr hmem
      | inr hmem => exact ih.2.2 pr hmem

/-- C10: the volume of the tick that starts a bar is never counted: a fresh
current bar always has volume 0 regardless of the opening tick's volume, the
boundary-crossing tick's volume is added to the bar being closed, and over any
tick stream every closed bar's volume equals the volume sum of its segment —
the ticks strictly after its opening tick up to and including the closing tick
(the segment produced by the instrumented run, whose bars coincide with the
plain run's closed bars). -/
theorem C10_opening_tick_volume_excluded (interval : ℚ)
    (ticks : List (ℚ × ℚ × ℚ)) :
    (∀ t p : ℚ, (startNewCandle t p).volume = 0) ∧
    (∀ (c : Candle) (st t p v : ℚ), interval ≤ t - st →
      (addData interval ⟨some c, some st⟩ t p v).2.map Candle.volume =
        [c.volume + v]) ∧
    ((runTicksSeg interval (initialCandleState, []) ticks).2.map Prod.fst =
      (runTicks interval initialCandleState ticks).2) ∧
    (∀ pr ∈ (runTicksSeg interval (initialCandleState, []) ticks).2,
      pr.1.volume = tickVolSum pr.2) := by
  have hinv0 : SegInv (initialCandleState, []) := by
    intro c hc
    simp [initialCandleState] at hc
  have hrun := runTicksSeg_spec interval ticks (initialCandleState, []) hinv0
  refine ⟨fun t p => rfl, ?_, hrun.2.1, hrun.2.2⟩
  intro c st t p v hle
  simp [addData, hle]

/-- C10 witness: for ticks (t=0, p=10, v=5), (t=500, p=12, v=7),
(t=1200, p=9, v=3) the opener's volume 5 is dropped, and the closed bar's
volume is 7 + 3 = 10, the sum over its segment. -/
theorem C10_opening_tick_volume_excluded_witness :
    (startNewCandle 0 10).volume = 0 ∧
    (addData 1000
      ⟨some { timestamp := 0, open_ := 10, high := 12, low := 10, close := 12,
              volume := 7, originalTimestamp := 0 }, some 0⟩ 1200 9 3).2.map
        Candle.volume = [7 + 3] ∧
    ({ timestamp := 0, open_ := 10, high := 12, low := 9, close := 9,
       volume := 10, originalTimestamp := 0 } : Candle).volume =
      tickVolSum [((500 : ℚ), (12 : ℚ), (7 : ℚ)), (1200, 9, 3)] := by
  refine ⟨(C10_opening_tick_volume_excluded 1000 []).1 0 10, ?_, ?_⟩
  · exact (C10_opening_tick_volume_excluded 1000 []).2.1
      { timestamp := 0, open_ := 10, high := 12, low := 10, close := 12,
        volume := 7, originalTimestamp := 0 } 0 1200 9 3 (by norm_num)
  · exact (C10_opening_tick_volume_excluded 1000
      [(0, 10, 5), (500, 12, 7), (1200, 9, 3)]).2.2.2
      ({ timestamp := 0, open_ := 10, high := 12, low := 9, close := 9,
         volume := 10, originalTimestamp := 0 },
       [((500 : ℚ), (12 : ℚ), (7 : ℚ)), (1200, 9, 3)])
      (by norm_num [runTicksSeg, addDataSeg, initialCandleState, startNewCandle])

/-! ## Signal dedup lemmas (C4) -/

lemma sigKey_createSignal (cp : CommonPoint) (c : Candle) (st : SignalType) :
    sigKey (createSignal cp c st) = levelKey cp := rfl

/-- The loop body either leaves the accumulator unchanged or appends one
signal and marks the (previously unprocessed) levelKey. -/
lemma checkOne_eq (cfg : Config) (c : Candle) (acc : ProcessedSet × List Signal)
    (cp : CommonPoint) :
    checkOne cfg c acc cp = acc ∨
    (levelKey cp ∉ acc.1 ∧
      checkOne cfg c acc cp =
        (acc.1 ++ [levelKey cp], acc.2 ++ [createSignal cp c .REVISIT])) := by
  unfold checkOne
  dsimp only
  split_ifs with h1 h2 h3
  · left; rfl
  · left; rfl
  · right; exact ⟨h2, rfl⟩
  · left; rfl

lemma countK_append (k : SwingType × ℤ) (l1 l2 : List Signal) :
    countK k (l1 ++ l2) = countK k l1 + countK k l2 := by
  simp [countK, List.countP_append]

lemma countK_emit_self (k : SwingType × ℤ) (l : List Signal) (sg : Signal)
    (h : sigKey sg = k) : countK k (l ++ [sg]) = countK k l + 1 := by
  simp [countK, List.countP_append, List.countP_cons, h]

lemma countK_emit_other (k : SwingType × ℤ) (l : List Signal) (sg : Signal)
    (h : sigKey sg ≠ k) : countK k (l ++ [sg]) = countK k l := by
  simp [countK, List.countP_append, List.countP_cons, h]

/-- Fold invariants of checkForSignals: processed keys persist, a processed
key gains no further signals, and any key gains at most one signal (gaining
one marks it processed). -/
lemma foldl_checkOne_key (cfg : Config) (c : Candle) (k : SwingType × ℤ) :
    ∀ (cps : List CommonPoint) (acc : ProcessedSet × List Signal),
      (∀ k', k' ∈ acc.1 → k' ∈ (cps.foldl (checkOne cfg c) acc).1) ∧
      (k ∈ acc.1 →
        countK k (cps.foldl (checkOne cfg c) acc).2 = countK k acc.2) ∧
      (countK k (cps.foldl (checkOne cfg c) acc).2 ≤ countK k acc.2 + 1) ∧
      (countK k acc.2 + 1 ≤ countK k (cps.foldl (checkOne cfg c) acc).2 →
        k ∈ (cps.foldl (checkOne cfg c) acc).1)
  | [], acc => by
    refine ⟨fun _ h => h, fun _ => rfl, ?_, ?_⟩
    · rw [List.foldl_nil]
      exact Nat.le_succ _
    · intro h
      rw [List.foldl_nil] at h
      exact absurd h (by omega)
  | cp :: cps, acc => by
    rw [List.foldl_cons]
    rcases checkOne_eq cfg c acc cp with heq | ⟨hnot, heq⟩
    · rw [heq]
      exact foldl_checkOne_key cfg c k cps acc
    · rw [heq]
      have ih := foldl_checkOne_key cfg c k cps
        (acc.1 ++ [levelKey cp], acc.2 ++ [createSignal cp c .REVISIT])
      by_cases hk : k = levelKey cp
      · have hmem : k ∈ acc.1 ++ [levelKey cp] := by
          subst hk; exact List.mem_append_right _ (List.mem_singleton.mpr rfl)
        have hS1 : countK k (acc.2 ++ [createSignal cp c .REVISIT]) =
            countK k acc.2 + 1 :=
          countK_emit_self k acc.2 _ (by rw [sigKey_createSignal, hk])
        refine ⟨?_, ?_, ?_, ?_⟩
        · intro k' hk'
          exact ih.1 k' (List.mem_append_left _ hk')
        · intro hkacc
          exact absurd (hk ▸ hkacc) hnot
        · have := ih.2.1 hmem
          rw [this, hS1]
        · intro _
          exact ih.1 k hmem
      · have hS1 : countK k (acc.2 ++ [createSignal cp c .REVISIT]) =
            countK k acc.2 :=
          countK_emit_other k acc.2 _ (by rw [sigKey_createSignal]; exact fun h => hk h.symm)
        refine ⟨?_, ?_, ?_, ?_⟩
        · intro k' hk'
          exact ih.1 k' (List.mem_append_left _ hk')
        · intro hkacc
          have := ih.2.1 (List.mem_append_left _ hkacc)
          rw [this, hS1]
        · have := ih.2.2.1
          rw [hS1] at this
          exact this
        · intro hge
          apply ih.2.2.2
          rw [hS1]
          exact hge
    termination_by cps => cps.length

/-- Per-call facts of checkForSignals, specialised from the fold invariant. -/
lemma checkForSignals_key (cfg : Config) (c : Candle) (k : SwingType × ℤ)
    (s : ProcessedSet) (cps : List CommonPoint) :
    (∀ k', k' ∈ s → k' ∈ (checkForSignals cfg s c cps).1) ∧
    (k ∈ s → countK k (checkForSignals cfg s c cps).2 = 0) ∧
    (countK k (checkForSignals cfg s c cps).2 ≤ 1) ∧
    (1 ≤ countK k (checkForSignals cfg s c cps).2 →
      k ∈ (checkForSignals cfg s c cps).1) := by
  have h := foldl_checkOne_key cfg c k cps (s, [])
  have h0 : countK k ([] : List Signal) = 0 := rfl
  exact ⟨h.1, by simpa [checkForSignals, h0] using h.2.1,
    by simpa [checkForSignals, h0] using h.2.2.1,
    by simpa [checkForSignals, h0] using h.2.2.2⟩

/-- Trace-level dedup: over a whole lifetime of calls, a processed key stays
processed, never re-fires, and any key fires at most once. -/
lemma runSignals_key (cfg : Config) (k : SwingType × ℤ) :
    ∀ (events : List (Candle × List CommonPoint)) (s : ProcessedSet),
      (∀ k', k' ∈ s → k' ∈ (runSignals cfg s events).1) ∧
      (k ∈ s → countK k (runSignals cfg s events).2 = 0) ∧
      (countK k (runSignals cfg s events).2 ≤ 1) ∧
      (1 ≤ countK k (runSignals cfg s events).2 → k ∈ (runSignals cfg s events).1)
  | [], s => by
    have h0 : countK k (runSignals cfg s []).2 = 0 := rfl
    exact ⟨fun _ h => h, fun _ => rfl, by omega,
      fun h => absurd h (by rw [h0]; omega)⟩
  | (c, cps) :: events, s => by
    have hcall := checkForSignals_key cfg c k s cps
    have ih := runSignals_key cfg k events (checkForSignals cfg s c cps).1
    have hshape : runSignals cfg s ((c, cps) :: events) =
        ((runSignals cfg (checkForSignals cfg s c cps).1 events).1,
         (checkForSignals cfg s c cps).2 ++
           (runSignals cfg (checkForSignals cfg s c cps).1 events).2) := rfl
    rw [hshape]
    refine ⟨?_, ?_, ?_, ?_⟩
    · intro k' hk'
      exact ih.1 k' (hcall.1 k' hk')
    · intro hks
      rw [countK_append, hcall.2.1 hks, ih.2.1 (hcall.1 k hks)]
    · rw [countK_append]
      by_cases hc1 : 1 ≤ countK k (checkForSignals cfg s c cps).2
      · have hk1 : k ∈ (checkForSignals cfg s c cps).1 := hcall.2.2.2 hc1
        have := ih.2.1 hk1
        have := hcall.2.2.1
        omega
      · have h0 : countK k (checkForSignals cfg s c cps).2 = 0 := by omega
        have := ih.2.2.1
        omega
    · rw [countK_append]
      intro hge
      by_cases hrest : 1 ≤ countK k
          (runSignals cfg (checkForSignals cfg s c cps).1 events).2
      · exact ih.2.2.2 hrest
      · have hc1 : 1 ≤ countK k (checkForSignals cfg s c cps).2 := by omega
        exact ih.1 k (hcall.2.2.2 hc1)

/-- C4 (amended): over the lifetime of the signal service, at most one signal
is ever emitted per levelKey: a first qualifying bar fires exactly one signal
for the level and every later qualifying bar — including bars arriving after
the level set was refreshed by a new qualification cycle re-producing the same
levelKey — fires none, because processedLevels is never cleared;
re-qualification does NOT re-enable emission for that levelKey. -/
theorem C4_at_most_once_per_levelKey (cfg : Config) (c : Candle)
    (cp : CommonPoint) (events : List (Candle × List CommonPoint))
    (h1 : cp.originalTimestamp < c.timestamp)
    (h2 : |c.close - cp.price| / cp.price ≤ cfg.signalRevisitTolerance) :
    countK (levelKey cp) (runSignals cfg [] ((c, [cp]) :: events)).2 = 1 ∧
    (∀ (events' : List (Candle × List CommonPoint)) (k : SwingType × ℤ),
      countK k (runSignals cfg [] events').2 ≤ 1) := by
  constructor
  · have hcall : checkForSignals cfg [] c [cp] =
        ([levelKey cp], [createSignal cp c .REVISIT]) := by
      unfold checkForSignals checkOne
      simp [not_le.mpr h1, h2]
    have hshape : runSignals cfg [] ((c, [cp]) :: events) =
        ((runSignals cfg (checkForSignals cfg [] c [cp]).1 events).1,
         (checkForSignals cfg [] c [cp]).2 ++
           (runSignals cfg (checkForSignals cfg [] c [cp]).1 events).2) := rfl
    rw [hshape, hcall, countK_append]
    have hone : countK (levelKey cp) [createSignal cp c .REVISIT] = 1 := by
      simp [countK, List.countP_cons, sigKey_createSignal]
    have hrest := (runSignals_key cfg (levelKey cp) events [levelKey cp]).2.1
      (List.mem_singleton.mpr rfl)
    rw [hone, hrest]
  · intro events' k
    exact (runSignals_key cfg k events' []).2.2.1

/-- C4 witness: the default configuration, the level (SWING_LOW @ 100,
t = 0) and a bar at t = 1000 closing at 100.1 (0.1% away, within the 0.2%
tolerance): exactly one signal fires over the whole trace. -/
theorem C4_at_most_once_per_levelKey_witness :
    countK (levelKey c4lvl)
      (runSignals defaultConfig [] [(c4bar1, [c4lvl])]).2 = 1 ∧
    countK (levelKey c4lvl)
      (runSignals defaultConfig [] [(c4bar1, [c4lvl]), (c4bar2, [c4lvl])]).2 ≤ 1 := by
  have h := C4_at_most_once_per_levelKey defaultConfig c4bar1 c4lvl []
    (by norm_num [c4lvl, c4bar1])
    (by norm_num [c4lvl, c4bar1, defaultConfig, abs_of_nonneg])
  exact ⟨h.1, h.2 [(c4bar1, [c4lvl]), (c4bar2, [c4lvl])] (levelKey c4lvl)⟩

/-- C4 counterexample to the re-qualification clause: the same level set
containing the level (same levelKey) is supplied again after a refresh; the
second bar qualifies on its own (it fires from a fresh processed set), yet the
continued trace emits no second signal — re-qualification does not re-enable
emission for the levelKey. -/
theorem C4_counterexample :
    ((runSignals defaultConfig [] [(c4bar1, [c4lvl]), (c4bar2, [c4lvl])]).2.length = 1) ∧
    ((checkForSignals defaultConfig [] c4bar2 [c4lvl]).2.length = 1) ∧
    ((checkForSignals defaultConfig
        (runSignals defaultConfig [] [(c4bar1, [c4lvl])]).1
        c4bar2 [c4lvl]).2.length = 0) := by
  refine ⟨?_, ?_, ?_⟩ <;>
    norm_num [runSignals, checkForSignals, checkOne, createSignal, levelKey,
      jsRound, defaultConfig, c4lvl, c4bar1, c4bar2, abs_of_nonneg]

/-! ## Consensus lemmas (C5, C6) -/

/-- Membership in findCommonSwingPoints comes from a cluster of the greedy
clustering pass that spans more than one distinct timeframe. -/
lemma mem_findCommonSwingPoints {cfg : Config} {pts : List SwingPoint}
    {cp : CommonPoint} (h : cp ∈ findCommonSwingPoints cfg pts) :
    ∃ cl ∈ clusterLoop cfg (sortByTimestamp pts),
      1 < ((cl.map (·.timeframe)).dedup).length ∧
      cp = createCommonPointEnhanced cl := by
  unfold findCommonSwingPoints at h
  rw [List.mem_filterMap] at h
  obtain ⟨cl, hcl, heq⟩ := h
  by_cases hlen : 1 < ((cl.map (·.timeframe)).dedup).length
  · rw [if_pos hlen] at heq
    exact ⟨cl, hcl, hlen, (Option.some_inj.mp heq).symm⟩
  · rw [if_neg hlen] at heq
    cases heq

/-- The three-point example evaluates to a single qualified level whose
cluster is the whole input. -/
lemma c5_eval : findCommonSwingPoints defaultConfig c5pts =
    [createCommonPointEnhanced c5pts] := by
  norm_num [findCommonSwingPoints, sortByTimestamp, insertByTs, clusterLoop,
    arePointsSimilarEnhanced, arePricesSimilar, areOpenCloseSimilar,
    areBarCharacteristicsSimilar, getTimeDifference, getMaxTimeDiffForTimeframes,
    timeframeDuration, defaultConfig, c5pts, c5pt, abs_of_nonneg, abs_of_nonpos,
    List.filterMap_cons, List.dedup_cons_of_mem]
  simp [List.dedup_cons_of_not_mem]

/-- C5 counterexample: a cluster of three points from only two distinct
timeframes is produced by the consensus step with qualityScore 45 =
3 (members) × 10 + 15, whereas confirmationCount×10 plus the same bonuses
(the claim's formula) gives 35. -/
theorem C5_counterexample :
    ((findCommonSwingPoints defaultConfig c5pts).map
      (fun cp => (cp.confirmationCount, cp.qualityScore,
        claimedQualityScore cp.allPoints))) = [(2, 45, 35)] ∧
    (45 : ℚ) ≠ 35 := by
  constructor
  · rw [c5_eval]
    norm_num [createCommonPointEnhanced, calculateQualityScore,
      claimedQualityScore, calculatePriceVariance, avgQ, jsOpenOf, jsCloseOf,
      c5pts, c5pt, List.dedup_cons_of_mem]
    simp [List.dedup_cons_of_not_mem]
    norm_num
  · norm_num

/-- C5 (amended): every cluster produced by the consensus step has
qualityScore equal to its MEMBER COUNT × 10 (points.length, not the distinct-
timeframe confirmationCount) plus the fixed bonuses: +20 if the price
variance < 1e-4, else +10 if < 5e-4; +15 if the open and close variances are
both < 1e-4; +15 if the members span ≥ 3 timeframes; no other terms and no
ceiling. -/
theorem C5_quality_score_formula (cfg : Config) (pts : List SwingPoint)
    (cp : CommonPoint) (h : cp ∈ findCommonSwingPoints cfg pts) :
    cp.qualityScore =
      (cp.allPoints.length : ℚ) * 10 +
      (if calculatePriceVariance (cp.allPoints.map (·.price)) < 1 / 10000 then 20
       else if calculatePriceVariance (cp.allPoints.map (·.price)) < 5 / 10000
         then 10 else 0) +
      (if calculatePriceVariance (cp.allPoints.map jsOpenOf) < 1 / 10000 ∧
          calculatePriceVariance (cp.allPoints.map jsCloseOf) < 1 / 10000
        then 15 else 0) +
      (if 3 ≤ ((cp.allPoints.map (·.timeframe)).dedup).length then 15 else 0) := by
  obtain ⟨cl, hcl, hlen, rfl⟩ := mem_findCommonSwingPoints h
  rfl

/-- C5 witness: the formula applied to the concrete produced level of the
three-point example. -/
theorem C5_quality_score_formula_witness :
    (createCommonPointEnhanced c5pts).qualityScore =
      ((createCommonPointEnhanced c5pts).allPoints.length : ℚ) * 10 +
      (if calculatePriceVariance
          ((createCommonPointEnhanced c5pts).allPoints.map (·.price)) < 1 / 10000
        then 20
       else if calculatePriceVariance
          ((createCommonPointEnhanced c5pts).allPoints.map (·.price)) < 5 / 10000
        then 10 else 0) +
      (if calculatePriceVariance
            ((createCommonPointEnhanced c5pts).allPoints.map jsOpenOf) < 1 / 10000 ∧
          calculatePriceVariance
            ((createCommonPointEnhanced c5pts).allPoints.map jsCloseOf) < 1 / 10000
        then 15 else 0) +
      (if 3 ≤ (((createCommonPointEnhanced c5pts).allPoints.map
          (·.timeframe)).dedup).length then 15 else 0) :=
  C5_quality_score_formula defaultConfig c5pts (createCommonPointEnhanced c5pts)
    (by rw [c5_eval]; exact List.mem_singleton.mpr rfl)

/-- C6: every qualified level produced by the consensus step spans at least
two distinct timeframes, its confirmationCount equals the number of distinct
timeframes among its cluster members, its timeframes field lists exactly those
distinct timeframes, and hence no single-timeframe cluster ever yields a
qualified level. -/
theorem C6_two_timeframe_confirmation (cfg : Config) (pts : List SwingPoint)
    (cp : CommonPoint) (h : cp ∈ findCommonSwingPoints cfg pts) :
    2 ≤ cp.confirmationCount ∧
    cp.confirmationCount = ((cp.allPoints.map (·.timeframe)).dedup).length ∧
    cp.timeframes = (cp.allPoints.map (·.timeframe)).dedup := by
  obtain ⟨cl, hcl, hlen, rfl⟩ := mem_findCommonSwingPoints h
  exact ⟨hlen, rfl, rfl⟩

/-- C6 witness: the produced level of the three-point example has
confirmationCount 2 = the number of distinct timeframes of its members. -/
theorem C6_two_timeframe_confirmation_witness :
    2 ≤ (createCommonPointEnhanced c5pts).confirmationCount ∧
    (createCommonPointEnhanced c5pts).confirmationCount =
      (((createCommonPointEnhanced c5pts).allPoints.map
        (·.timeframe)).dedup).length ∧
    (createCommonPointEnhanced c5pts).timeframes =
      ((createCommonPointEnhanced c5pts).allPoints.map (·.timeframe)).dedup :=
  C6_two_timeframe_confirmation defaultConfig c5pts
    (createCommonPointEnhanced c5pts)
    (by rw [c5_eval]; exact List.mem_singleton.mpr rfl)

/-! ## Swing strength lemmas (C3) -/

/-- Membership in the raw swing-high list, characterised: a record appears
exactly for the candidate indices whose high dominates the window and whose
strength reaches minStrength, and it carries that strength. -/
lemma mem_detectRawSwingHighs (tf : String) (left right : ℕ) (minS : ℚ)
    (pd : List PriceBar) (sp : SwingPoint) :
    sp ∈ detectRawSwingHighs tf left right minS pd ↔
    ∃ i ∈ candidateIdxs left right pd, isSwingHighAt left right pd i = true ∧
      minS ≤ calculateSwingStrength pd i SwingKind.high ∧
      sp = mkSwing tf SwingType.SWING_HIGH pd i
        (calculateSwingStrength pd i SwingKind.high) := by
  unfold detectRawSwingHighs
  rw [List.mem_filterMap]
  constructor
  · rintro ⟨i, hi, heq⟩
    by_cases hH : isSwingHighAt left right pd i
    · rw [if_pos hH] at heq
      dsimp only at heq
      by_cases hS : minS ≤ calculateSwingStrength pd i SwingKind.high
      · rw [if_pos hS] at heq
        exact ⟨i, hi, hH, hS, (Option.some_inj.mp heq).symm⟩
      · rw [if_neg hS] at heq
        cases heq
    · rw [if_neg hH] at heq
      cases heq
  · rintro ⟨i, hi, hH, hS, rfl⟩
    refine ⟨i, hi, ?_⟩
    rw [if_pos hH]
    dsimp only
    rw [if_pos hS]

/-- C3 (amended): for a candidate index whose high strictly dominates its
window, a swing high is recorded iff
`calculateSwingStrength ≥ minStrength`, where the strength is the ratio
swingMovement / avgMovement — swingMovement = high − min(low, previous bar's
low) and avgMovement = the mean absolute close-to-close change over the
window [i−10, i+10) (0.01 when that window is empty or flat) — NOT the
relative deviation of the extreme from the window mean, and the recorded
point carries exactly that strength (swing points have no qualityScore
field). -/
theorem C3_strength_code_formula (tf : String) (left right : ℕ)
    (minS : ℚ) (pd : List PriceBar) (i : ℕ)
    (hc : i ∈ candidateIdxs left right pd)
    (hh : isSwingHighAt left right pd i = true) :
    ((∃ sp ∈ detectRawSwingHighs tf left right minS pd, sp.index = i) ↔
      minS ≤ calculateSwingStrength pd i SwingKind.high) ∧
    (∀ sp ∈ detectRawSwingHighs tf left right minS pd, sp.index = i →
      sp.strength = calculateSwingStrength pd i SwingKind.high ∧
      sp.type = SwingType.SWING_HIGH ∧
      sp.price = (pd.getD i default).high) := by
  constructor
  · constructor
    · rintro ⟨sp, hsp, hidx⟩
      rw [mem_detectRawSwingHighs] at hsp
      obtain ⟨j, hj, hH, hS, rfl⟩ := hsp
      have hji : j = i := by simpa [mkSwing] using hidx
      subst hji
      exact hS
    · intro hS
      exact ⟨mkSwing tf SwingType.SWING_HIGH pd i
          (calculateSwingStrength pd i SwingKind.high),
        (mem_detectRawSwingHighs tf left right minS pd _).mpr
          ⟨i, hc, hh, hS, rfl⟩, rfl⟩
  · intro sp hsp hidx
    rw [mem_detectRawSwingHighs] at hsp
    obtain ⟨j, hj, hH, hS, rfl⟩ := hsp
    have hji : j = i := by simpa [mkSwing] using hidx
    subst hji
    exact ⟨rfl, rfl, rfl⟩

set_option maxHeartbeats 2000000 in
lemma c3_lows_eval : detectRawSwingLows "15s" 2 2 (1 / 100) c3bars = [] := by
  norm_num [detectRawSwingLows, candidateIdxs, isSwingLowAt, c3bars,
    List.range_succ, List.filterMap_cons, List.filterMap_nil,
    List.all_cons, List.all_nil, decide_eq_true_eq, Bool.and_eq_true]

set_option maxHeartbeats 2000000 in
lemma c3_highs_eval : detectRawSwingHighs "15s" 2 2 (1 / 100) c3bars =
    [mkSwing "15s" SwingType.SWING_HIGH c3bars 5 5] := by
  norm_num [detectRawSwingHighs, candidateIdxs, isSwingHighAt,
    calculateSwingStrength, closeAt, c3bars, List.range_succ,
    List.filterMap_cons, List.filterMap_nil,
    List.all_cons, List.all_nil, decide_eq_true_eq, Bool.and_eq_true]

/-- C3 counterexample: with leftBars = rightBars = 2, minStrength = 0.01 and
highs 1,1,1,1,1,1.05,1,1,1,1,1 (flat closes and lows), index 5 IS detected as
SWING_HIGH, but its strength is 5 — swingMovement 0.05 divided by the flat-
window fallback average movement 0.01 — not ≈ 0.05 as the claimed
mean-deviation formula predicts (and the detected point has no qualityScore
field at all). -/
theorem C3_counterexample :
    ((detectSwingPoints "15s" 2 2 (1 / 100) c3bars).map
      (fun sp => (sp.index, sp.type, sp.strength))) =
      [(5, SwingType.SWING_HIGH, (5 : ℚ))] ∧
    (5 : ℚ) ≠ 1 / 20 ∧ 1 < |(5 : ℚ) - 1 / 20| := by
  refine ⟨?_, by norm_num, by rw [abs_of_nonneg (by norm_num)]; norm_num⟩
  have hsplit : detectSwingPoints "15s" 2 2 (1 / 100) c3bars =
      filterConsecutiveSwings 2 (detectRawSwingHighs "15s" 2 2 (1 / 100) c3bars) ++
      filterConsecutiveSwings 2 (detectRawSwingLows "15s" 2 2 (1 / 100) c3bars) := by
    unfold detectSwingPoints
    rw [if_neg (by norm_num [c3bars])]
  rw [hsplit, c3_highs_eval, c3_lows_eval]
  norm_num [filterConsecutiveSwings, mkSwing, c3bars]

/-- C3 witness: the amended rule applied at the concrete example — the
candidate at index 5 is recorded because its ratio strength 5 reaches
minStrength 0.01. -/
theorem C3_strength_code_formula_witness :
    (∃ sp ∈ detectRawSwingHighs "15s" 2 2 (1 / 100) c3bars, sp.index = 5) ∧
    calculateSwingStrength c3bars 5 SwingKind.high = 5 := by
  have hc : 5 ∈ candidateIdxs 2 2 c3bars := by
    norm_num [candidateIdxs, c3bars, List.range_succ]
  have hh : isSwingHighAt 2 2 c3bars 5 = true := by
    norm_num [isSwingHighAt, c3bars, List.range_succ]
  have hs5 : calculateSwingStrength c3bars 5 SwingKind.high = 5 := by
    norm_num [calculateSwingStrength, closeAt, c3bars, List.range_succ]
  have h := C3_strength_code_formula "15s" 2 2 (1 / 100) c3bars 5 hc hh
  exact ⟨h.1.mpr (by rw [hs5]; norm_num), hs5⟩

end TradingBot
